import Mathlib

/-!
Verification development for the Game-Anime-Recommender backend (`src/app.py`).

The Python functions under verification are shallowly embedded as executable
Lean definitions:
* Python `str` values are Lean `String`s (kernel-level a list of `Char`);
  `str.lower` / `str.strip` / `str.split()` are modelled over ASCII, matching
  the catalog data, by `pyLower` / `pyStrip` / `pySplit`.
* pandas dataframes are modelled as `DataFrame`: an ordered list of `Row`s
  with a default integer index, together with a flag saying whether one of the
  title alias columns (`Name`/`name`/`title`/`Title`) is present.  The alias
  loops of the source reduce to a single lookup because the model carries at
  most one title column.
* Missing cells / NaN / absent dict keys are modelled by `Option`; numeric
  raw values are modelled by their decimal string (which `int()` / `float()`
  parse equivalently); Python floats are modelled by `Rat`, exact for every
  constant the program produces.
* The Jikan network lookup plus its response parsing chain is modelled as an
  oracle `net : String → Option String` returning the extracted image URL,
  `none` standing for any network or parsing failure.
-/

/-- `listStarts needle hay` is Python `hay.startswith(needle)` on char lists. -/
def listStarts : List Char → List Char → Bool
  | [], _ => true
  | _ :: _, [] => false
  | a :: as, b :: bs => a == b && listStarts as bs

/-- `listHasSub needle hay` is Python `needle in hay` on char lists. -/
def listHasSub (needle : List Char) : List Char → Bool
  | [] => needle.isEmpty
  | c :: t => listStarts needle (c :: t) || listHasSub needle t

/-- Python `needle in hay` for strings. -/
def strHasSub (hay needle : String) : Bool :=
  listHasSub needle.toList hay.toList

/-- Python `hay.startswith(needle)` for strings. -/
def strStarts (hay needle : String) : Bool :=
  listStarts needle.toList hay.toList

/-- Python `str.lower` (ASCII model, matching `Char.toLower`). -/
def pyLower (s : String) : String :=
  String.mk (s.toList.map Char.toLower)

/-- Python `str.strip()` (whitespace model: space, tab, CR, LF). -/
def pyStrip (s : String) : String :=
  String.mk (((s.toList.dropWhile Char.isWhitespace).reverse.dropWhile
    Char.isWhitespace).reverse)

/-- Accumulator-based splitter behind `pySplit`. -/
def wsSplit (acc : List Char) : List Char → List String
  | [] => if acc.isEmpty then [] else [String.mk acc.reverse]
  | c :: t =>
    if c.isWhitespace then
      if acc.isEmpty then wsSplit [] t
      else String.mk acc.reverse :: wsSplit [] t
    else wsSplit (c :: acc) t

/-- Python `str.split()`: split on whitespace runs, dropping empty pieces. -/
def pySplit (s : String) : List String :=
  wsSplit [] s.toList

/-- Python `str(x)` for an optional string cell: `None`/NaN prints as `"nan"`
(the pandas NaN case at `str(item[col])` in `_format_item`). -/
def pyStr : Option String → String
  | some s => s
  | none => "nan"

/-- `_convert_game_rating` from `src/app.py` lines 456-472.  Python floats
`5.0` … `0.0` are modelled by the exact rationals `5` … `0`.  The empty
string models every falsy input (`""`, `None`, `0`). -/
def convertGameRating (ratingStr : String) : Rat :=
  if ratingStr = "" then 0
  else
    let s := pyLower ratingStr
    if strHasSub s "very positive" then 5
    else if strHasSub s "positive" then 4
    else if strHasSub s "mixed" then 3
    else if strHasSub s "negative" then 2
    else if strHasSub s "very negative" then 1
    else 0

/-- A canonical response item, mirroring the result dicts built by
`_format_item`, `_get_popular_items` and `_coerce_record`.  Metadata is
flattened into the structure; dict keys a given code path does not emit
(`price` for anime, `similarity` for `_coerce_record`) are modelled by the
neutral values `none` / `0`.  Raw `price_final` values are never converted by
the source, so `price` stays an optional raw string. -/
structure Item where
  id : String
  title : String
  image_url : Option String
  rating : Rat
  type : String
  genre : String
  year : Option Int
  popularity : Int
  price : Option String
  similarity : Rat
deriving DecidableEq, Repr

/-- One dataframe row, carrying exactly the cells the matcher and formatters
read.  `titleCol` is the cell of the one present title alias column
(`none` = NaN).  `ratingNum` is the first convertible numeric rating among
`Rating`/`rating`/`score`/`Score`/`avg_rating` (anime); `ratingTxt` the raw
textual `rating` (games).  `pop` is `Popularity`, `reviews` is
`user_reviews`; integer conversions of present cells are assumed to
succeed. -/
structure Row where
  titleCol : Option String
  animeId : Option String
  appId : Option String
  imageURL : Option String
  ratingTxt : Option String
  ratingNum : Option Rat
  genres : Option String
  pop : Option Int
  reviews : Option Int
  price : Option String
deriving DecidableEq, Repr

/-- A loaded dataframe: ordered rows with the default integer index, plus
whether one of the title alias columns `Name`/`name`/`title`/`Title`
exists. -/
structure DataFrame where
  hasTitleCol : Bool
  rows : List Row
deriving DecidableEq, Repr

/-- The global `TRAINED_MODELS` state: per domain, the optional `data`
dataframe and the optional `popular` artifact (`none` covers both a missing
key and a value of `None`, which behave identically downstream).  The anime
popularity artifact is an ordered list of names, the game one an ordered
list of row positions, matching the two branches of `_get_popular_items`. -/
structure Models where
  animeData : Option DataFrame
  animePopular : Option (List String)
  gameData : Option DataFrame
  gamePopular : Option (List Nat)
deriving DecidableEq, Repr

/-- The Steam CDN header-image URL synthesized for games. -/
def steamHeaderUrl (appId : String) : String :=
  "https://cdn.akamai.steamstatic.com/steam/apps/" ++ appId ++ "/header.jpg"

/-- `_format_item` from `src/app.py` lines 207-251.  `idx` is the row's
dataframe index label as yielded by `iterrows`. -/
def formatItem (itemType : String) (idx : Nat) (row : Row) : Item :=
  if itemType = "anime" then
    { id := row.animeId.getD ("anime-" ++ toString idx)
      title := pyStr row.titleCol
      image_url := row.imageURL
      rating := row.ratingNum.getD 0
      type := "anime"
      genre := row.genres.getD ""
      year := none
      popularity := row.pop.getD 0
      price := none
      similarity := (8 : Rat) / 10 }
  else
    { id := row.appId.getD ("game-" ++ toString idx)
      title := pyStr row.titleCol
      image_url := some (steamHeaderUrl (row.appId.getD "0"))
      rating := convertGameRating (row.ratingTxt.getD "")
      type := "game"
      genre := ""
      year := none
      popularity := row.reviews.getD 0
      price := row.price
      similarity := (8 : Rat) / 10 }

/-- Rows (with index labels) whose lower-cased title equals the query:
`data[data[col].str.lower() == title_lower]` (NaN compares unequal). -/
def exactList (df : DataFrame) (q : String) : List (Nat × Row) :=
  df.rows.enum.filter fun p =>
    match p.2.titleCol with
    | some t => pyLower t == q
    | none => false

/-- Rows whose lower-cased title starts with the query
(`.str.startswith(title_lower, na=False)`). -/
def startsList (df : DataFrame) (q : String) : List (Nat × Row) :=
  df.rows.enum.filter fun p =>
    match p.2.titleCol with
    | some t => strStarts (pyLower t) q
    | none => false

/-- Rows whose lower-cased title contains the query
(`.str.contains(title_lower, na=False, regex=False)`). -/
def containsList (df : DataFrame) (q : String) : List (Nat × Row) :=
  df.rows.enum.filter fun p =>
    match p.2.titleCol with
    | some t => strHasSub (pyLower t) q
    | none => false

/-- Bool test for whether a word-character classification holds at a char. -/
def isWordChar (c : Char) : Bool :=
  c.isAlphanum || c == '_'

/-- A regex `\b` boundary between an optional left and right character
(string edges count as non-word). -/
def atBoundary (l r : Option Char) : Bool :=
  (match l with | some c => isWordChar c | none => false)
    != (match r with | some c => isWordChar c | none => false)

/-- Whether `\b w \b` matches at the start of `hay`, with `prev` the char
before this position. -/
def wordAt (prev : Option Char) (hay w : List Char) : Bool :=
  listStarts w hay && atBoundary prev w.head?
    && atBoundary w.getLast? (hay.drop w.length).head?

/-- Scan of `re.search` for `\b w \b` over the haystack. -/
def wordScan (w : List Char) (prev : Option Char) : List Char → Bool
  | [] => wordAt prev [] w
  | c :: t => wordAt prev (c :: t) w || wordScan w (some c) t

/-- Python `re.search(r"\b" + word + r"\b", hay)` for a word free of regex
metacharacters (the only words the catalog queries produce). -/
def hasWord (hay word : String) : Bool :=
  wordScan word.toList none hay.toList

/-- Rows whose lower-cased title contains the query word at word
boundaries (`.str.contains(r'\b'+word+r'\b', na=False, regex=True)`). -/
def wordList (df : DataFrame) (w : String) : List (Nat × Row) :=
  df.rows.enum.filter fun p =>
    match p.2.titleCol with
    | some t => hasWord (pyLower t) w
    | none => false

/-- One lower-priority tier loop: walk candidate rows, break once `limit`
results are accumulated, skip rows whose formatted title already occurs
(`if not any(r['title'] == str(item[col]) for r in results)`), else
append. -/
def addCands (t : String) (limit : Nat) (acc : List Item) :
    List (Nat × Row) → List Item
  | [] => acc
  | p :: rest =>
    if limit ≤ acc.length then acc
    else
      let it := formatItem t p.1 p.2
      if acc.any (fun r => r.title == it.title) then addCands t limit acc rest
      else addCands t limit (acc ++ [it]) rest

/-- The Exact tier: `exact_matches.head(limit)` formatted in table order,
appended without any duplicate check. -/
def exactTier (df : DataFrame) (t : String) (q : String) (limit : Nat) :
    List Item :=
  ((exactList df q).take limit).map fun p => formatItem t p.1 p.2

/-- The word-boundary tier: for each query word of length ≥ 3, add up to
`limit // 4` word-boundary matches. -/
def wordTier (df : DataFrame) (t : String) (limit : Nat) (acc : List Item) :
    List String → List Item
  | [] => acc
  | w :: ws =>
    wordTier df t limit
      (if 3 ≤ w.length then addCands t limit acc ((wordList df w).take (limit / 4))
       else acc)
      ws

/-- The four matching tiers of `_get_recommendations_from_trained_model`
(lines 143-186), for the first present title column; with no title column
every tier is skipped and the result stays empty. -/
def tierResults (df : DataFrame) (t : String) (q : String) (limit : Nat) :
    List Item :=
  if df.hasTitleCol then
    let r1 := exactTier df t q limit
    let r2 := addCands t limit r1 ((startsList df q).take (limit / 2))
    let r3 :=
      if 4 ≤ q.length then addCands t limit r2 ((containsList df q).take (limit / 3))
      else r2
    let words := pySplit q
    if 1 < words.length then wordTier df t limit r3 words else r3
  else []

/-- One popular anime entry (`_get_popular_items`, anime branch): the item
built from the first row whose title cell equals the popular name;
`i` is the enumeration position in the popularity list. -/
def animePopItem (row : Row) (i : Nat) (name : String) : Item :=
  { id := row.animeId.getD ("anime-" ++ toString i)
    title := name
    image_url := row.imageURL
    rating := row.ratingNum.getD 0
    type := "anime"
    genre := row.genres.getD ""
    year := none
    popularity := row.pop.getD 0
    price := none
    similarity := (5 : Rat) / 10 }

/-- `_get_popular_items`, anime branch (lines 257-302): resolve each of the
first `limit` popular names against the dataframe by exact title equality,
skipping names with no match (and everything, when no title column
exists). -/
def getPopularItemsAnime (df : DataFrame) (names : List String) (limit : Nat) :
    List Item :=
  (names.take limit).enum.filterMap fun p =>
    if df.hasTitleCol then
      (df.rows.find? fun r => r.titleCol == some p.2).map fun row =>
        animePopItem row p.1 p.2
    else none

/-- One popular game entry (`_get_popular_items`, game branch), built from
the row at popular position `idx`. -/
def gamePopItem (row : Row) (idx : Nat) : Item :=
  { id := row.appId.getD ("game-" ++ toString idx)
    title := row.titleCol.getD ("Game " ++ toString idx)
    image_url := some (steamHeaderUrl (row.appId.getD "0"))
    rating := convertGameRating (row.ratingTxt.getD "")
    type := "game"
    genre := ""
    year := none
    popularity := row.reviews.getD 0
    price := row.price
    similarity := (5 : Rat) / 10 }

/-- `_get_popular_items`, game branch (lines 304-336): the popularity
artifact lists row positions, resolved with `data.iloc[idx]`; out-of-range
positions raise `IndexError` and are skipped. -/
def getPopularItemsGame (df : DataFrame) (idxs : List Nat) (limit : Nat) :
    List Item :=
  (idxs.take limit).filterMap fun idx =>
    (df.rows[idx]?).map fun row => gamePopItem row idx

/-- `_get_popular_items` from `src/app.py` lines 254-341. -/
def getPopularItems (m : Models) (t : String) (limit : Nat) : List Item :=
  if t = "anime" then
    match m.animePopular, m.animeData with
    | some names, some df => getPopularItemsAnime df names limit
    | _, _ => []
  else if t = "game" then
    match m.gamePopular, m.gameData with
    | some idxs, some df => getPopularItemsGame df idxs limit
    | _, _ => []
  else []

/-- The per-domain `models.get("data")` lookup. -/
def domainData (m : Models) (t : String) : Option DataFrame :=
  if t = "anime" then m.animeData
  else if t = "game" then m.gameData
  else none

/-- The padding loop of lines 189-198: walk the fetched popular items,
append each whose title is not yet present, and break once `limit` is
reached. -/
def padWithPop (limit : Nat) (acc : List Item) : List Item → List Item
  | [] => acc
  | it :: rest =>
    let acc' := if acc.any (fun r => r.title == it.title) then acc else acc ++ [it]
    if limit ≤ acc'.length then acc' else padWithPop limit acc' rest

/-- `_get_recommendations_from_trained_model` from `src/app.py` lines
123-204: tier matching, padding with `_get_popular_items(item_type,
limit - len(results))`, and final truncation to `limit`. -/
def getRecommendationsFromTrainedModel (m : Models) (title : String)
    (t : String) (limit : Nat) : List Item :=
  if t = "anime" ∨ t = "game" then
    match domainData m t with
    | none => []
    | some df =>
      let q := pyStrip (pyLower title)
      if q = "" then getPopularItems m t limit
      else
        let r := tierResults df t q limit
        let r' :=
          if r.length < limit then
            padWithPop limit r (getPopularItems m t (limit - r.length))
          else r
        r'.take limit
  else []

/-- Association-list lookup, modelling a read of the `ANIME_IMG_CACHE`
dict. -/
def alookup (st : List (String × String)) (k : String) : Option String :=
  (st.find? fun p => p.1 == k).map Prod.snd

/-- Association-list write, modelling `ANIME_IMG_CACHE[key] = url`. -/
def aset : List (String × String) → String → String → List (String × String)
  | [], k, v => [(k, v)]
  | p :: t, k, v => if p.1 == k then (k, v) :: t else p :: aset t k v

/-- Chars before the first occurrence of `sep`: Python `t.split(sep)[0]`. -/
def listBeforeSub (sep : List Char) : List Char → List Char
  | [] => []
  | c :: t => if listStarts sep (c :: t) then [] else c :: listBeforeSub sep t

/-- Collapse whitespace runs to a single space:
`re.sub(r"\s+", " ", t)`.  `prevWs` records whether the previous char was
whitespace. -/
def squeezeWs (prevWs : Bool) : List Char → List Char
  | [] => []
  | c :: t =>
    if c.isWhitespace then
      if prevWs then squeezeWs true t else ' ' :: squeezeWs true t
    else c :: squeezeWs false t

/-- The separator loop at the end of `_normalize_anime_title_for_search`:
for the first listed separator occurring in a string longer than 40 chars,
keep the text before it. -/
def applySeps (s : String) : List String → String
  | [] => s
  | sep :: rest =>
    if strHasSub s sep && 40 < s.length then
      String.mk (listBeforeSub sep.toList s.toList)
    else applySeps s rest

/-- `_normalize_anime_title_for_search` from `src/app.py` lines 409-420:
control chars and star glyphs become spaces, whitespace is collapsed and
stripped, and long titles are cut before the first subtitle separator. -/
def normalizeAnimeTitle (t : String) : String :=
  let l1 := t.toList.map fun c => if c.toNat ≤ 31 then ' ' else c
  let l2 := l1.map fun c => if c == '☆' || c == '★' then ' ' else c
  let s := pyStrip (String.mk (squeezeWs false l2))
  applySeps s [" - ", ":", "—", "–", "|", "/"]

/-- Result of one `_get_anime_image_url` call: the returned value, the cache
afterwards, and how many network lookups were issued (0 or 1). -/
structure FetchResult where
  result : Option String
  cache : List (String × String)
  lookups : Nat
deriving DecidableEq, Repr

/-- `_get_anime_image_url` from `src/app.py` lines 423-453.  `net` is the
oracle for `requests.get` on the Jikan API plus the response-parsing chain
(`r.ok`, `data[0]`, `images.jpg`, `large`/`default`/`small` fallback): it
returns the extracted URL string, or `none` for any network or parsing
failure.  `hasRequests` is `requests is not None`.  Only a well-formed
(`http`-prefixed) URL is written into the cache; the asynchronous
persistence of the cache file is a side effect outside this model. -/
def getAnimeImageUrl (net : String → Option String) (hasRequests : Bool)
    (cache : List (String × String)) (title : String) : FetchResult :=
  if title = "" then ⟨none, cache, 0⟩
  else
    let key := pyStrip title
    match alookup cache key with
    | some url => ⟨some url, cache, 0⟩
    | none =>
      if hasRequests then
        let norm := normalizeAnimeTitle key
        let q := if norm = "" then key else norm
        match net q with
        | some url =>
          if strStarts url "http" then ⟨some url, aset cache key url, 1⟩
          else ⟨none, cache, 1⟩
        | none => ⟨none, cache, 1⟩
      else ⟨none, cache, 0⟩

/-- Two sequential `_get_anime_image_url` calls for the same title, the
second starting from the cache the first left behind. -/
def fetchTwice (net : String → Option String) (hasRequests : Bool)
    (cache : List (String × String)) (title : String) :
    FetchResult × FetchResult :=
  let f1 := getAnimeImageUrl net hasRequests cache title
  (f1, getAnimeImageUrl net hasRequests f1.cache title)

/-- A raw record (`obj` in `_coerce_record`): one optional field per dict
key the function reads.  Keys whose Python spelling collides with another
field or with Lean syntax are suffixed (`nameUC` = `"Name"`, `titleUC` =
`"Title"`, `imageUC` = `"Image URL"`, `ratingUC` = `"Rating"`, `genresUC` =
`"Genres"`, `popUC` = `"Popularity"`, `popShort` = `"pop"`, `appIdCamel` =
`"appId"`, `idF` = `"id"`, `animeF` = `"anime"`, `gameF` = `"game"`).  Raw
values are modelled as strings; numbers stand as their decimal strings. -/
structure RawRecord where
  title : Option String
  name : Option String
  nameUC : Option String
  app_name : Option String
  animeF : Option String
  gameF : Option String
  titleUC : Option String
  image_url : Option String
  img_url : Option String
  poster : Option String
  header_image : Option String
  thumbnail : Option String
  imageUC : Option String
  rating : Option String
  score : Option String
  avg_rating : Option String
  ratingUC : Option String
  genre : Option String
  genres : Option String
  tags : Option String
  genresUC : Option String
  year : Option String
  release_year : Option String
  aired : Option String
  popularity : Option String
  popShort : Option String
  rank : Option String
  popUC : Option String
  user_reviews : Option String
  price : Option String
  final_price : Option String
  price_final : Option String
  app_id : Option String
  appid : Option String
  appIdCamel : Option String
  idF : Option String
  anime_id : Option String
deriving DecidableEq, Repr

/-- Python `a or b or ...` over optional strings: the first present,
non-empty value (`None` and `""` are falsy). -/
def firstTruthy : List (Option String) → Option String
  | [] => none
  | some s :: rest => if s = "" then firstTruthy rest else some s
  | none :: rest => firstTruthy rest

/-- The title resolution chain of `_coerce_record` line 346, including the
`str(obj.get("Name") or obj.get("Title") or f"Item {idx}")` fallback. -/
def resolveTitle (r : RawRecord) (idx : Nat) : String :=
  match firstTruthy [r.title, r.name, r.nameUC, r.app_name, r.animeF, r.gameF] with
  | some s => s
  | none => (firstTruthy [r.nameUC, r.titleUC]).getD ("Item " ++ toString idx)

/-- Whether a char list is non-empty and all decimal digits
(Python `str.isdigit`, ASCII model). -/
def allDigits (l : List Char) : Bool :=
  !l.isEmpty && l.all Char.isDigit

/-- Numeric value of a digit list. -/
def digitsToNat (l : List Char) : Nat :=
  l.foldl (fun a c => a * 10 + (c.toNat - 48)) 0

/-- Python `int(s)` on a string: optional sign before digits, surrounding
whitespace stripped; `none` models `ValueError`. -/
def pyInt? (s : String) : Option Int :=
  match (pyStrip s).toList with
  | '-' :: rest => if allDigits rest then some (-(digitsToNat rest : Int)) else none
  | '+' :: rest => if allDigits rest then some (digitsToNat rest : Int) else none
  | l => if allDigits l then some (digitsToNat l : Int) else none

/-- Unsigned part of Python `float(s)`: digits with an optional fractional
part (exponent and `inf`/`nan` forms are not produced by the catalogs and
are not modelled). -/
def parseUnsignedFloat (l : List Char) : Option Rat :=
  let ip := l.takeWhile fun c => c != '.'
  match l.dropWhile fun c => c != '.' with
  | [] => if allDigits ip then some ((digitsToNat ip : Int) : Rat) else none
  | _ :: fp =>
    if ip.all Char.isDigit && fp.all Char.isDigit && (!ip.isEmpty || !fp.isEmpty) then
      some ((digitsToNat ip : Rat) + (digitsToNat fp : Rat) / ((10 : Rat) ^ fp.length))
    else none

/-- Python `float(s)` on a string; `none` models `ValueError`. -/
def pyFloat? (s : String) : Option Rat :=
  match (pyStrip s).toList with
  | '-' :: rest => (parseUnsignedFloat rest).map Neg.neg
  | '+' :: rest => parseUnsignedFloat rest
  | l => parseUnsignedFloat l

/-- The fixed denylist of internal-representation leakage markers checked
against lower-cased titles (`src/app.py` line 384). -/
def denyList : List String :=
  ["pandas.core", "numpy.core", "dataframe", "series", "dtype", "ndarray", "index"]

/-- The validation test of `_coerce_record` line 384. -/
def titleInvalid (titleStr : String) : Bool :=
  300 < titleStr.length || denyList.any fun k => strHasSub (pyLower titleStr) k

/-- The final image guard of `_coerce_record` line 390:
`image_url if isinstance(image_url, str) and image_url.startswith("http")
else None`. -/
def sanitizeImage : Option String → Option String
  | some s => if strStarts s "http" then some s else none
  | none => none

/-- `_coerce_record` from `src/app.py` lines 344-394.  Conversion failures
caught by the source's `try`/`except` blocks are the `none` branches of the
parsers. -/
def coerceRecord (r : RawRecord) (itemType : String) (idx : Nat) : Option Item :=
  let titleStr := resolveTitle r idx
  let image0 := firstTruthy [r.image_url, r.img_url, r.poster, r.header_image,
    r.thumbnail, r.imageUC]
  let ratingChain := firstTruthy [r.rating, r.score, r.avg_rating, r.ratingUC]
  let ratingVal : Rat :=
    if itemType = "game" then convertGameRating (ratingChain.getD "")
    else (ratingChain.bind pyFloat?).getD 0
  let yearVal : Option Int :=
    match firstTruthy [r.year, r.release_year, r.aired] with
    | some s => if allDigits s.toList then some (digitsToNat s.toList : Int) else none
    | none => none
  let popVal : Int :=
    ((firstTruthy [r.popularity, r.popShort, r.rank, r.popUC, r.user_reviews]).bind
      pyInt?).getD 0
  let appIdChain := firstTruthy [r.app_id, r.appid, r.appIdCamel]
  let image1 :=
    if (match image0 with
        | some s => !strStarts s "http"
        | none => true) then
      match appIdChain with
      | some a =>
        match pyInt? a with
        | some n => some (steamHeaderUrl (toString n))
        | none => image0
      | none => image0
    else image0
  if titleInvalid titleStr then none
  else
    some
      { id := (firstTruthy [r.idF, r.app_id, r.anime_id]).getD ("pop-" ++ toString idx)
        title := titleStr
        image_url := sanitizeImage image1
        rating := ratingVal
        type := itemType
        genre := (firstTruthy [r.genre, r.genres, r.tags, r.genresUC]).getD ""
        year := yearVal
        popularity := popVal
        price := firstTruthy [r.price, r.final_price, r.price_final]
        similarity := 0 }

/-- The `/api/recommend` limit clamp (`src/app.py` lines 726-727):
`limit = 12 if limit == 12 else min(max(limit, 1), 50)`. -/
def effectiveLimit (limit : Int) : Int :=
  if limit = 12 then 12 else min (max limit 1) 50

/-- Modelled from the spec's padding formula (§8: "`len(match(q, catalog,
limit)) == min(limit, len(catalog.items) ∪ popularity_order reachable)`"):
the number of distinct titles reachable from the catalog table or through
the popularity order.  Used only to state claim C4 against the code. -/
def reachableTitleCount (m : Models) (t : String) : Nat :=
  ((match domainData m t with
    | some df => df.rows.filterMap Row.titleCol
    | none => []) ++
   (if t = "anime" then
      match m.animePopular, m.animeData with
      | some names, some df => (getPopularItemsAnime df names names.length).map Item.title
      | _, _ => []
    else if t = "game" then
      match m.gamePopular, m.gameData with
      | some idxs, some df => (getPopularItemsGame df idxs idxs.length).map Item.title
      | _, _ => []
    else [])).dedup.length

/-- A row carrying only a title cell, for concrete examples. -/
def rowOnly (s : String) : Row :=
  ⟨some s, none, none, none, none, none, none, none, none, none⟩

/-- A row whose `Image URL` cell is not a URL at all. -/
def rowBadImg : Row :=
  { rowOnly "Some Show" with imageURL := some "not a url" }

/-- Model state: an anime catalog whose two rows share the title `"A"`. -/
def mDup : Models :=
  ⟨some ⟨true, [rowOnly "A", rowOnly "A"]⟩, some [], none, none⟩

/-- Model state: anime catalog `A, B` with popularity order `A, B`. -/
def mPad : Models :=
  ⟨some ⟨true, [rowOnly "A", rowOnly "B"]⟩, some ["A", "B"], none, none⟩

/-- Model state: anime catalog `A, B` with popularity order `B`. -/
def mFresh : Models :=
  ⟨some ⟨true, [rowOnly "A", rowOnly "B"]⟩, some ["B"], none, none⟩

/-- Model state: anime catalog `A, B` with an empty popularity artifact. -/
def mNoPop : Models :=
  ⟨some ⟨true, [rowOnly "A", rowOnly "B"]⟩, some [], none, none⟩

/-- The raw record with every field absent. -/
def rawEmpty : RawRecord :=
  ⟨none, none, none, none, none, none, none, none, none, none, none, none,
   none, none, none, none, none, none, none, none, none, none, none, none,
   none, none, none, none, none, none, none, none, none, none, none, none,
   none⟩

/-- Raw record whose title contains the denylist marker `"dataframe"`. -/
def rawC8 : RawRecord :=
  { rawEmpty with title := some "My DataFrame Story" }

/-- Raw record with the ordinary anime title `"A Certain Magical Index"`. -/
def rawC9 : RawRecord :=
  { rawEmpty with title := some "A Certain Magical Index" }

/-- The item `_coerce_record` yields for the all-absent record at index 0. -/
def itemEmpty : Item :=
  ⟨"pop-0", "Item 0", none, 0, "anime", "", none, 0, none, 0⟩

/-- Network oracle on which every lookup fails. -/
def netFail : String → Option String := fun _ => none

/-- Network oracle returning a fixed well-formed URL. -/
def netOk : String → Option String := fun _ => some "https://cdn.example/naruto.jpg"

theorem listStarts_iff {p l : List Char} :
    listStarts p l = true ↔ ∃ r, l = p ++ r := by
  induction p generalizing l with
  | nil => simp [listStarts]
  | cons a as ih =>
    cases l with
    | nil => simp [listStarts]
    | cons b bs =>
      simp only [listStarts, Bool.and_eq_true, beq_iff_eq, ih, List.cons_append,
        List.cons.injEq]
      constructor
      · rintro ⟨rfl, r, rfl⟩; exact ⟨r, rfl, rfl⟩
      · rintro ⟨r, rfl, rfl⟩; exact ⟨rfl, r, rfl⟩

theorem listHasSub_iff {needle hay : List Char} :
    listHasSub needle hay = true ↔ ∃ l r, hay = l ++ needle ++ r := by
  induction hay with
  | nil =>
    simp only [listHasSub, List.isEmpty_iff]
    constructor
    · rintro rfl; exact ⟨[], [], rfl⟩
    · rintro ⟨l, r, h⟩
      rcases List.append_eq_nil.mp h.symm with ⟨h1, h2⟩
      exact (List.append_eq_nil.mp h1).2
  | cons c t ih =>
    simp only [listHasSub, Bool.or_eq_true, listStarts_iff, ih]
    constructor
    · rintro (⟨r, h⟩ | ⟨l, r, h⟩)
      · exact ⟨[], r, by simpa using h⟩
      · exact ⟨c :: l, r, by simp [h]⟩
    · rintro ⟨l, r, h⟩
      cases l with
      | nil => exact Or.inl ⟨r, by simpa using h⟩
      | cons x xs =>
        simp only [List.cons_append, List.cons.injEq] at h
        exact Or.inr ⟨xs, r, h.2⟩

/-- Substring containment is transitive: if `a` occurs in `b` and `b` occurs
in `c`, then `a` occurs in `c`. -/
theorem listHasSub_trans {a b c : List Char}
    (h1 : listHasSub a b = true) (h2 : listHasSub b c = true) :
    listHasSub a c = true := by
  rcases listHasSub_iff.mp h1 with ⟨l1, r1, rfl⟩
  rcases listHasSub_iff.mp h2 with ⟨l2, r2, rfl⟩
  exact listHasSub_iff.mpr ⟨l2 ++ l1, r1 ++ r2, by simp⟩

theorem strHasSub_trans {s a b : String}
    (h1 : strHasSub b a = true) (h2 : strHasSub s b = true) :
    strHasSub s a = true :=
  listHasSub_trans h1 h2

/-- Claim C1 (counterexample): the input `"very negative"` contains the
substring `"very negative"` (case-insensitively), yet the converter returns
`2.0`, not `1.0`: the `"negative"` branch is checked first and always fires. -/
theorem C1_counterexample :
    strHasSub (pyLower "very negative") "very negative" = true ∧
      convertGameRating "very negative" ≠ 1 := by
  constructor
  · rfl
  · decide

/-- Claim C1 (amended): a game rating string containing `"very negative"`
(case-insensitively) is converted to `2.0` — not `1.0` — provided it does not
also contain `"positive"` or `"mixed"`, because the plain `"negative"` branch
is evaluated before the dead `"very negative"` branch. -/
theorem C1_amended (s : String)
    (hvn : strHasSub (pyLower s) "very negative" = true)
    (hp : strHasSub (pyLower s) "positive" = false)
    (hm : strHasSub (pyLower s) "mixed" = false) :
    convertGameRating s = 2 := by
  have hne : s ≠ "" := by
    rintro rfl
    simp [strHasSub, pyLower, listHasSub, List.isEmpty] at hvn
  have hneg : strHasSub (pyLower s) "negative" = true :=
    strHasSub_trans (by decide) hvn
  have hvp : strHasSub (pyLower s) "very positive" = false := by
    cases h : strHasSub (pyLower s) "very positive" with
    | false => rfl
    | true =>
      have : strHasSub (pyLower s) "positive" = true :=
        strHasSub_trans (by decide) h
      rw [hp] at this; cases this
  simp only [convertGameRating, if_neg hne]
  rw [hvp, hp, hm, hneg]
  rfl

/-- Claim C1 (witness for the amended theorem) at the input
`"Very Negative"`. -/
theorem C1_amended_witness :
    strHasSub (pyLower "Very Negative") "very negative" = true ∧
      strHasSub (pyLower "Very Negative") "positive" = false ∧
      strHasSub (pyLower "Very Negative") "mixed" = false ∧
      convertGameRating "Very Negative" = 2 :=
  ⟨by decide, by decide, by decide,
    C1_amended "Very Negative" (by decide) (by decide) (by decide)⟩

/-- Any title failing the validation test makes `_coerce_record` drop the
record, whatever the domain and index. -/
theorem coerceRecord_invalid {r : RawRecord} {t : String} {i : Nat}
    (h : titleInvalid (resolveTitle r i) = true) :
    coerceRecord r t i = none := by
  simp only [coerceRecord]
  rw [if_pos h]

/-- Claim C10: for every parsed `/api/recommend` payload, the effective
limit is clamped into `[1, 50]`; values below 1 become 1 and values above
50 become 50. -/
theorem C10_clamp (l : Int) :
    1 ≤ effectiveLimit l ∧ effectiveLimit l ≤ 50 ∧
      (l < 1 → effectiveLimit l = 1) ∧ (50 < l → effectiveLimit l = 50) := by
  refine ⟨?_, ?_, fun h1 => ?_, fun h2 => ?_⟩ <;>
    unfold effectiveLimit <;> split <;> omega

/-- Claim C10 (witness) at the caller-supplied limit `-7`. -/
theorem C10_clamp_witness :
    1 ≤ effectiveLimit (-7) ∧ effectiveLimit (-7) ≤ 50 ∧
      ((-7 : Int) < 1 → effectiveLimit (-7) = 1) ∧
      ((50 : Int) < -7 → effectiveLimit (-7) = 50) :=
  C10_clamp (-7)

/-- Claim C8: a raw record whose resolved title is longer than 300
characters, or contains a denylist marker case-insensitively, is dropped
(`normalize` returns null) instead of raising. -/
theorem C8_drop (r : RawRecord) (t : String) (i : Nat)
    (h : 300 < (resolveTitle r i).length ∨
      (denyList.any fun k => strHasSub (pyLower (resolveTitle r i)) k) = true) :
    coerceRecord r t i = none := by
  apply coerceRecord_invalid
  simp only [titleInvalid, Bool.or_eq_true, decide_eq_true_eq]
  exact h

/-- Claim C8 (witness): the record titled `"My DataFrame Story"` hits the
`"dataframe"` marker and is dropped. -/
theorem C8_drop_witness :
    ((denyList.any fun k => strHasSub (pyLower (resolveTitle rawC8 0)) k) = true) ∧
      coerceRecord rawC8 "anime" 0 = none :=
  ⟨by decide, C8_drop rawC8 "anime" 0 (Or.inr (by decide))⟩

/-- Claim C9: a raw record whose title contains `"index"` or `"series"` in
any letter case is dropped by the normalizer, so legitimately-titled
records are silently lost. -/
theorem C9_overbroad (r : RawRecord) (t : String) (i : Nat)
    (h : strHasSub (pyLower (resolveTitle r i)) "index" = true ∨
      strHasSub (pyLower (resolveTitle r i)) "series" = true) :
    coerceRecord r t i = none := by
  apply coerceRecord_invalid
  simp only [titleInvalid, Bool.or_eq_true, decide_eq_true_eq, List.any_eq_true]
  refine Or.inr ?_
  rcases h with h | h
  · exact ⟨"index", by decide, h⟩
  · exact ⟨"series", by decide, h⟩

/-- Claim C9 (witness): the ordinary anime title `"A Certain Magical
Index"` is dropped. -/
theorem C9_overbroad_witness :
    strHasSub (pyLower (resolveTitle rawC9 0)) "index" = true ∧
      coerceRecord rawC9 "anime" 0 = none :=
  ⟨by decide, C9_overbroad rawC9 "anime" 0 (Or.inl (by decide))⟩

/-- Claim C6: a query that is empty after trimming makes the tiered
matcher return exactly `_get_popular_items(item_type, limit)`, for every
model state, domain string, and limit. -/
theorem C6_empty_query (m : Models) (title t : String) (limit : Nat)
    (h : pyStrip (pyLower title) = "") :
    getRecommendationsFromTrainedModel m title t limit = getPopularItems m t limit := by
  unfold getRecommendationsFromTrainedModel
  by_cases hv : t = "anime" ∨ t = "game"
  · rw [if_pos hv]
    cases hd : domainData m t with
    | none =>
      rcases hv with rfl | rfl
      · simp [domainData] at hd
        simp only [getPopularItems, if_pos rfl]
        cases m.animePopular <;> simp [hd]
      · have hne : ("game" : String) ≠ "anime" := by decide
        simp [domainData, hne] at hd
        simp only [getPopularItems, if_neg hne, if_pos rfl]
        cases m.gamePopular <;> simp [hd]
    | some df => simp [h]
  · rw [if_neg hv]
    have h1 : t ≠ "anime" := fun e => hv (Or.inl e)
    have h2 : t ≠ "game" := fun e => hv (Or.inr e)
    simp [getPopularItems, h1, h2]

/-- Claim C6 (witness): blank query against the concrete catalog `mPad`. -/
theorem C6_empty_query_witness :
    pyStrip (pyLower "  ") = "" ∧
      getRecommendationsFromTrainedModel mPad "  " "anime" 3 =
        getPopularItems mPad "anime" 3 :=
  ⟨rfl, C6_empty_query mPad "  " "anime" 3 rfl⟩

theorem listStarts_append {p a : List Char} (h : listStarts p a = true)
    (b : List Char) : listStarts p (a ++ b) = true := by
  rcases listStarts_iff.mp h with ⟨r, rfl⟩
  exact listStarts_iff.mpr ⟨r ++ b, by simp⟩

/-- Every synthesized Steam header-image URL is `http`-prefixed. -/
theorem steamHeaderUrl_starts (a : String) :
    strStarts (steamHeaderUrl a) "http" = true := by
  have hbase : listStarts "http".toList
      "https://cdn.akamai.steamstatic.com/steam/apps/".toList = true := by decide
  have hdata : (steamHeaderUrl a).toList =
      "https://cdn.akamai.steamstatic.com/steam/apps/".toList ++
        (a.toList ++ "/header.jpg".toList) := by
    simp [steamHeaderUrl, String.toList]
  unfold strStarts
  rw [hdata]
  exact listStarts_append hbase _

/-- Whatever the resolved raw value, the sanitized `image_url` is null or
`http`-prefixed. -/
theorem sanitizeImage_ok (o : Option String) :
    sanitizeImage o = none ∨
      ∃ s, sanitizeImage o = some s ∧ strStarts s "http" = true := by
  cases o with
  | none => exact Or.inl rfl
  | some s => cases hs : strStarts s "http" <;> simp [sanitizeImage, hs]

/-- Claim C7 (counterexample): `_format_item` keeps a raw anime `Image URL`
cell verbatim, so a produced item can carry an image value that is neither
null nor `http`-prefixed. -/
theorem C7_counterexample :
    (formatItem "anime" 0 rowBadImg).image_url = some "not a url" ∧
      strStarts "not a url" "http" = false := by
  exact ⟨rfl, by decide⟩

/-- Claim C7 (amended): the normalizer `_coerce_record` guarantees that
`image_url` is null or `http`-prefixed, and game-side `_format_item` always
emits a synthesized `http` URL; but anime-side `_format_item` passes the
raw `Image URL` cell through unvalidated. -/
theorem C7_amended :
    (∀ (r : RawRecord) (t : String) (i : Nat) (item : Item),
        coerceRecord r t i = some item →
          item.image_url = none ∨
            ∃ s, item.image_url = some s ∧ strStarts s "http" = true) ∧
      (∀ (row : Row) (i : Nat),
        ∃ s, (formatItem "game" i row).image_url = some s ∧
          strStarts s "http" = true) := by
  constructor
  · intro r t i item h
    simp only [coerceRecord] at h
    split at h
    · exact absurd h (by simp)
    · rw [Option.some.injEq] at h
      subst h
      exact sanitizeImage_ok _
  · intro row i
    refine ⟨steamHeaderUrl (row.appId.getD "0"), ?_, steamHeaderUrl_starts _⟩
    simp [formatItem]

/-- Claim C7 (witness for the amended theorem): the all-absent record
normalizes to an item whose image is null. -/
theorem C7_amended_witness :
    coerceRecord rawEmpty "anime" 0 = some itemEmpty ∧
      (itemEmpty.image_url = none ∨
        ∃ s, itemEmpty.image_url = some s ∧ strStarts s "http" = true) :=
  ⟨by decide, C7_amended.1 rawEmpty "anime" 0 itemEmpty (by decide)⟩

/-- Looking up a key right after writing it returns the written value. -/
theorem alookup_aset_self (st : List (String × String)) (k v : String) :
    alookup (aset st k v) k = some v := by
  induction st with
  | nil => simp [aset, alookup, List.find?]
  | cons p t ih =>
    cases h : (p.1 == k) with
    | true => simp [aset, h, alookup, List.find?]
    | false =>
      simp only [aset, h, Bool.false_eq_true, if_false]
      simpa [alookup, List.find?, h] using ih

/-- Claim C3 (counterexample): with an empty cache and a failing lookup,
two sequential `_get_anime_image_url("Naruto")` calls issue two network
lookups — nothing is cached on failure, so the claimed "at most one lookup
in total" is false. -/
theorem C3_counterexample :
    ¬ ((fetchTwice netFail true [] "Naruto").1.lookups +
        (fetchTwice netFail true [] "Naruto").2.lookups ≤ 1) := by decide

/-- Claim C3 (amended): each call issues at most one lookup, and whenever a
call returns a URL (cache hit or successful resolution), an immediately
following call for the same title issues no lookup and returns that same
value. -/
theorem C3_amended (net : String → Option String) (hr : Bool)
    (cache : List (String × String)) (title : String) (u : String)
    (h : (getAnimeImageUrl net hr cache title).result = some u) :
    (getAnimeImageUrl net hr cache title).lookups ≤ 1 ∧
      (getAnimeImageUrl net hr (getAnimeImageUrl net hr cache title).cache
        title).result = some u ∧
      (getAnimeImageUrl net hr (getAnimeImageUrl net hr cache title).cache
        title).lookups = 0 := by
  by_cases ht : title = ""
  · simp [getAnimeImageUrl, ht] at h
  · cases hc : alookup cache (pyStrip title) with
    | some url =>
      have e1 : getAnimeImageUrl net hr cache title = ⟨some url, cache, 0⟩ := by
        simp [getAnimeImageUrl, ht, hc]
      have hres : (getAnimeImageUrl net hr cache title).result = some url := by
        rw [e1]
      have hu : url = u := by
        rw [hres] at h; exact Option.some.inj h
      subst hu
      have hcache : (getAnimeImageUrl net hr cache title).cache = cache := by
        rw [e1]
      refine ⟨?_, ?_, ?_⟩
      · rw [e1]; exact Nat.zero_le 1
      · rw [hcache, e1]
      · rw [hcache, e1]
    | none =>
      cases hr with
      | false => simp [getAnimeImageUrl, ht, hc] at h
      | true =>
        cases hn : net (if normalizeAnimeTitle (pyStrip title) = ""
            then pyStrip title else normalizeAnimeTitle (pyStrip title)) with
        | none => simp [getAnimeImageUrl, ht, hc, hn] at h
        | some url =>
          cases hs : strStarts url "http" with
          | false => simp [getAnimeImageUrl, ht, hc, hn, hs] at h
          | true =>
            have e1 : getAnimeImageUrl net true cache title =
                ⟨some url, aset cache (pyStrip title) url, 1⟩ := by
              simp [getAnimeImageUrl, ht, hc, hn, hs]
            have hres : (getAnimeImageUrl net true cache title).result = some url := by
              rw [e1]
            have hu : url = u := by
              rw [hres] at h; exact Option.some.inj h
            subst hu
            have hcache : (getAnimeImageUrl net true cache title).cache =
                aset cache (pyStrip title) url := by rw [e1]
            have e2 : getAnimeImageUrl net true (aset cache (pyStrip title) url) title =
                ⟨some url, aset cache (pyStrip title) url, 0⟩ := by
              simp [getAnimeImageUrl, ht, alookup_aset_self]
            refine ⟨?_, ?_, ?_⟩
            · rw [e1]
            · rw [hcache, e2]
            · rw [hcache, e2]

/-- Claim C3 (witness for the amended theorem): a successful first
resolution of `"Naruto"` is cached and returned by the second call with no
further lookup. -/
theorem C3_amended_witness :
    (getAnimeImageUrl netOk true [] "Naruto").result =
        some "https://cdn.example/naruto.jpg" ∧
      ((getAnimeImageUrl netOk true [] "Naruto").lookups ≤ 1 ∧
        (getAnimeImageUrl netOk true (getAnimeImageUrl netOk true [] "Naruto").cache
          "Naruto").result = some "https://cdn.example/naruto.jpg" ∧
        (getAnimeImageUrl netOk true (getAnimeImageUrl netOk true [] "Naruto").cache
          "Naruto").lookups = 0) :=
  ⟨by decide, C3_amended netOk true [] "Naruto" "https://cdn.example/naruto.jpg"
    (by decide)⟩

/-- Lower-priority tiers only ever append to the accumulated results. -/
theorem addCands_extends (t : String) (limit : Nat) (cands : List (Nat × Row)) :
    ∀ acc, ∃ l, addCands t limit acc cands = acc ++ l := by
  induction cands with
  | nil => intro acc; exact ⟨[], by simp [addCands]⟩
  | cons p rest ih =>
    intro acc
    simp only [addCands]
    split
    · exact ⟨[], by simp⟩
    · split
      · exact ih acc
      · rcases ih (acc ++ [formatItem t p.1 p.2]) with ⟨l, hl⟩
        exact ⟨formatItem t p.1 p.2 :: l, by rw [hl]; simp⟩

/-- The word-boundary tier only ever appends to the accumulated results. -/
theorem wordTier_extends (df : DataFrame) (t : String) (limit : Nat)
    (ws : List String) : ∀ acc, ∃ l, wordTier df t limit acc ws = acc ++ l := by
  induction ws with
  | nil => intro acc; exact ⟨[], by simp [wordTier]⟩
  | cons w rest ih =>
    intro acc
    simp only [wordTier]
    split
    · rcases addCands_extends t limit ((wordList df w).take (limit / 4)) acc with ⟨l1, h1⟩
      rcases ih (addCands t limit acc ((wordList df w).take (limit / 4))) with ⟨l2, h2⟩
      exact ⟨l1 ++ l2, by rw [h2, h1]; simp⟩
    · exact ih acc

/-- The padding loop only ever appends to the accumulated results. -/
theorem padWithPop_extends (limit : Nat) (pop : List Item) :
    ∀ acc, ∃ l, padWithPop limit acc pop = acc ++ l := by
  induction pop with
  | nil => intro acc; exact ⟨[], by simp [padWithPop]⟩
  | cons it rest ih =>
    intro acc
    simp only [padWithPop]
    by_cases hany : (acc.any fun r => r.title == it.title) = true
    · rw [if_pos hany]
      split
      · exact ⟨[], by simp⟩
      · exact ih acc
    · rw [if_neg hany]
      split
      · exact ⟨[it], rfl⟩
      · rcases ih (acc ++ [it]) with ⟨l, hl⟩
        exact ⟨it :: l, by rw [hl]; simp⟩

/-- A negative `any`-scan over accumulated titles really is freshness. -/
theorem title_fresh_of_any_false {acc : List Item} {s : String}
    (h : (acc.any fun r => r.title == s) = false) :
    ∀ a ∈ acc.map Item.title, a ≠ s := by
  intro a ha
  rcases List.mem_map.mp ha with ⟨x, hx, rfl⟩
  intro he
  have hc : (acc.any fun r => r.title == s) = true :=
    List.any_eq_true.mpr ⟨x, hx, by simp [he]⟩
  rw [h] at hc; cases hc

theorem pairwise_append_single {l : List String} {s : String}
    (h : l.Pairwise (· ≠ ·)) (hf : ∀ a ∈ l, a ≠ s) :
    (l ++ [s]).Pairwise (· ≠ ·) := by
  rw [List.pairwise_append]
  refine ⟨h, List.pairwise_singleton _ _, fun a ha b hb => ?_⟩
  rcases List.mem_singleton.mp hb with rfl
  exact hf a ha

/-- The dedup check of the lower tiers preserves pairwise-distinct
titles. -/
theorem addCands_distinct (t : String) (limit : Nat) (cands : List (Nat × Row)) :
    ∀ acc, ((acc.map Item.title).Pairwise (· ≠ ·)) →
      (((addCands t limit acc cands).map Item.title).Pairwise (· ≠ ·)) := by
  induction cands with
  | nil => intro acc h; simpa [addCands] using h
  | cons p rest ih =>
    intro acc h
    simp only [addCands]
    split
    · exact h
    · split
      · exact ih acc h
      · rename_i hany
        apply ih
        simp only [List.map_append, List.map_cons, List.map_nil]
        exact pairwise_append_single h (title_fresh_of_any_false (by simpa using hany))

/-- The dedup check of the padding loop preserves pairwise-distinct
titles. -/
theorem padWithPop_distinct (limit : Nat) (pop : List Item) :
    ∀ acc, ((acc.map Item.title).Pairwise (· ≠ ·)) →
      (((padWithPop limit acc pop).map Item.title).Pairwise (· ≠ ·)) := by
  induction pop with
  | nil => intro acc h; exact h
  | cons it rest ih =>
    intro acc h
    simp only [padWithPop]
    by_cases hany : (acc.any fun r => r.title == it.title) = true
    · rw [if_pos hany]
      split
      · exact h
      · exact ih acc h
    · rw [if_neg hany]
      have h' : (((acc ++ [it]).map Item.title).Pairwise (· ≠ ·)) := by
        simp only [List.map_append, List.map_cons, List.map_nil]
        exact pairwise_append_single h (title_fresh_of_any_false (by simpa using hany))
      split
      · exact h'
      · exact ih _ h'

theorem wordTier_distinct (df : DataFrame) (t : String) (limit : Nat)
    (ws : List String) : ∀ acc, ((acc.map Item.title).Pairwise (· ≠ ·)) →
      (((wordTier df t limit acc ws).map Item.title).Pairwise (· ≠ ·)) := by
  induction ws with
  | nil => intro acc h; exact h
  | cons w rest ih =>
    intro acc h
    simp only [wordTier]
    split
    · exact ih _ (addCands_distinct t limit _ acc h)
    · exact ih acc h

/-- Both branches of `_format_item` carry `str(item[col])` as title. -/
theorem formatItem_title (t : String) (i : Nat) (r : Row) :
    (formatItem t i r).title = pyStr r.titleCol := by
  unfold formatItem; split <;> rfl

theorem map_pyStr_eq_filterMap {l : List (Nat × Row)}
    (h : ∀ p ∈ l, (p.2.titleCol).isSome) :
    (l.map fun p => pyStr p.2.titleCol) = l.filterMap fun p => p.2.titleCol := by
  induction l with
  | nil => rfl
  | cons p rest ih =>
    rcases Option.isSome_iff_exists.mp (h p (List.mem_cons_self p rest)) with ⟨tt, htt⟩
    simp only [List.map_cons, List.filterMap_cons, htt]
    rw [ih fun x hx => h x (List.mem_cons_of_mem p hx)]
    rfl

theorem exactList_titleCol_isSome {df : DataFrame} {q : String} {p : Nat × Row}
    (h : p ∈ exactList df q) : (p.2.titleCol).isSome := by
  have hp := (List.mem_filter.mp h).2
  cases hx : p.2.titleCol with
  | some tt => rfl
  | none => simp [hx] at hp

/-- Under pairwise-distinct catalog titles, the Exact tier itself has
pairwise-distinct titles (its rows all carry present title cells). -/
theorem exactTier_titles_pairwise (df : DataFrame) (t q : String) (limit : Nat)
    (h : (df.rows.filterMap Row.titleCol).Pairwise (· ≠ ·)) :
    ((exactTier df t q limit).map Item.title).Pairwise (· ≠ ·) := by
  have hmem : ∀ p ∈ (exactList df q).take limit, (p.2.titleCol).isSome := fun p hp =>
    exactList_titleCol_isSome (List.take_subset _ _ hp)
  have h1 : (exactTier df t q limit).map Item.title =
      ((exactList df q).take limit).map fun p => pyStr p.2.titleCol := by
    simp only [exactTier, List.map_map]
    exact List.map_congr_left fun p _ => formatItem_title t p.1 p.2
  rw [h1, map_pyStr_eq_filterMap hmem]
  have hsub : ((exactList df q).take limit).Sublist df.rows.enum :=
    (List.take_sublist _ _).trans (List.filter_sublist _)
  have h2 : (df.rows.enum.filterMap fun p => p.2.titleCol) =
      df.rows.filterMap Row.titleCol := by
    conv_rhs => rw [← List.enum_map_snd df.rows]
    rw [List.filterMap_map]
    rfl
  exact h.sublist (h2 ▸ hsub.filterMap _)

/-- Under pairwise-distinct catalog titles, the whole tier phase yields
pairwise-distinct titles. -/
theorem tierResults_distinct (df : DataFrame) (t q : String) (limit : Nat)
    (h : (df.rows.filterMap Row.titleCol).Pairwise (· ≠ ·)) :
    ((tierResults df t q limit).map Item.title).Pairwise (· ≠ ·) := by
  unfold tierResults
  split
  · have h1 := exactTier_titles_pairwise df t q limit h
    have h2 := addCands_distinct t limit ((startsList df q).take (limit / 2)) _ h1
    by_cases hc : 4 ≤ q.length
    · simp only [if_pos hc]
      by_cases hw : 1 < (pySplit q).length
      · rw [if_pos hw]
        exact wordTier_distinct df t limit _ _ (addCands_distinct t limit _ _ h2)
      · rw [if_neg hw]
        exact addCands_distinct t limit _ _ h2
    · simp only [if_neg hc]
      by_cases hw : 1 < (pySplit q).length
      · rw [if_pos hw]
        exact wordTier_distinct df t limit _ _ h2
      · rw [if_neg hw]
        exact h2
  · simp

/-- The tier loops never grow past `limit`. -/
theorem addCands_length_le (t : String) (limit : Nat) (cands : List (Nat × Row)) :
    ∀ acc, acc.length ≤ limit → (addCands t limit acc cands).length ≤ limit := by
  induction cands with
  | nil => intro acc h; simpa [addCands] using h
  | cons p rest ih =>
    intro acc h
    simp only [addCands]
    split
    · exact h
    · rename_i hlt
      split
      · exact ih acc h
      · apply ih
        have hx : acc.length < limit := Nat.lt_of_not_le hlt
        simp only [List.length_append, List.length_cons, List.length_nil]
        omega

theorem exactTier_length_le (df : DataFrame) (t q : String) (limit : Nat) :
    (exactTier df t q limit).length ≤ limit := by
  simp only [exactTier, List.length_map, List.length_take]
  exact min_le_left _ _

theorem wordTier_length_le (df : DataFrame) (t : String) (limit : Nat)
    (ws : List String) : ∀ acc, acc.length ≤ limit →
      (wordTier df t limit acc ws).length ≤ limit := by
  induction ws with
  | nil => intro acc h; exact h
  | cons w rest ih =>
    intro acc h
    simp only [wordTier]
    split
    · exact ih _ (addCands_length_le t limit _ acc h)
    · exact ih acc h

/-- The tier phase returns at most `limit` items. -/
theorem tierResults_length_le (df : DataFrame) (t q : String) (limit : Nat) :
    (tierResults df t q limit).length ≤ limit := by
  unfold tierResults
  split
  · have h1 := exactTier_length_le df t q limit
    have h2 := addCands_length_le t limit ((startsList df q).take (limit / 2)) _ h1
    by_cases hc : 4 ≤ q.length
    · simp only [if_pos hc]
      by_cases hw : 1 < (pySplit q).length
      · rw [if_pos hw]
        exact wordTier_length_le df t limit _ _ (addCands_length_le t limit _ _ h2)
      · rw [if_neg hw]
        exact addCands_length_le t limit _ _ h2
    · simp only [if_neg hc]
      by_cases hw : 1 < (pySplit q).length
      · rw [if_pos hw]
        exact wordTier_length_le df t limit _ _ h2
      · rw [if_neg hw]
        exact h2
  · simp

theorem getPopularItemsAnime_length_le (df : DataFrame) (names : List String)
    (limit : Nat) : (getPopularItemsAnime df names limit).length ≤ limit := by
  unfold getPopularItemsAnime
  calc (((names.take limit).enum).filterMap _).length
      ≤ ((names.take limit).enum).length := List.length_filterMap_le _ _
    _ = (names.take limit).length := List.enum_length
    _ ≤ limit := List.length_take_le _ _

theorem getPopularItemsGame_length_le (df : DataFrame) (idxs : List Nat)
    (limit : Nat) : (getPopularItemsGame df idxs limit).length ≤ limit := by
  unfold getPopularItemsGame
  calc ((idxs.take limit).filterMap _).length
      ≤ (idxs.take limit).length := List.length_filterMap_le _ _
    _ ≤ limit := List.length_take_le _ _

/-- `_get_popular_items` returns at most `limit` items. -/
theorem getPopularItems_length_le (m : Models) (t : String) (limit : Nat) :
    (getPopularItems m t limit).length ≤ limit := by
  unfold getPopularItems
  split
  · split
    · exact getPopularItemsAnime_length_le _ _ _
    · simp
  · split
    · split
      · exact getPopularItemsGame_length_le _ _ _
      · simp
    · simp

/-- When every padding item's title is fresh and the padding items are
pairwise distinct, the padding loop appends them all (the break cannot cut
any off while the total stays within `limit`). -/
theorem padWithPop_length (limit : Nat) (pop : List Item) :
    ∀ acc, acc.length + pop.length ≤ limit →
      (∀ it ∈ pop, ∀ a ∈ acc, a.title ≠ it.title) →
      ((pop.map Item.title).Pairwise (· ≠ ·)) →
      (padWithPop limit acc pop).length = acc.length + pop.length := by
  induction pop with
  | nil => intro acc _ _ _; simp [padWithPop]
  | cons it rest ih =>
    intro acc hlen hfresh hdist
    simp only [padWithPop]
    have hany : (acc.any fun r => r.title == it.title) = false := by
      rw [List.any_eq_false]
      intro r hr
      simp only [beq_iff_eq]
      exact fun he => hfresh it (List.mem_cons_self it rest) r hr he
    have hcond : ¬ ((acc.any fun r => r.title == it.title) = true) := by
      rw [hany]; simp
    rw [if_neg hcond]
    simp only [List.map_cons] at hdist
    have hhead : ∀ b ∈ rest.map Item.title, it.title ≠ b :=
      (List.pairwise_cons.mp hdist).1
    have htail := (List.pairwise_cons.mp hdist).2
    by_cases hbr : limit ≤ (acc ++ [it]).length
    · rw [if_pos hbr]
      simp only [List.length_append, List.length_cons, List.length_nil] at hbr hlen ⊢
      omega
    · rw [if_neg hbr]
      have hfresh' : ∀ x ∈ rest, ∀ a ∈ acc ++ [it], a.title ≠ x.title := by
        intro x hx a ha
        rcases List.mem_append.mp ha with ha' | ha'
        · exact hfresh x (List.mem_cons_of_mem it hx) a ha'
        · rcases List.mem_singleton.mp ha' with rfl
          exact hhead x.title (List.mem_map_of_mem Item.title hx)
      have hlen' : (acc ++ [it]).length + rest.length ≤ limit := by
        simp only [List.length_append, List.length_cons, List.length_nil]
        simp only [List.length_cons] at hlen
        omega
      rw [ih (acc ++ [it]) hlen' hfresh' htail]
      simp only [List.length_append, List.length_cons, List.length_nil]
      omega

/-- `models.get("data")` only succeeds for the two known domains. -/
theorem domainData_valid {m : Models} {t : String} {df : DataFrame}
    (hd : domainData m t = some df) : t = "anime" ∨ t = "game" := by
  unfold domainData at hd
  by_cases h1 : t = "anime"
  · exact Or.inl h1
  · by_cases h2 : t = "game"
    · exact Or.inr h2
    · rw [if_neg h1, if_neg h2] at hd; cases hd

/-- Claim C2 (counterexample): when the catalog itself contains two rows
titled `"A"`, the Exact tier appends both without any duplicate check, so
the match result for query `"a"` repeats the title `"A"`. -/
theorem C2_counterexample :
    ¬ (((getRecommendationsFromTrainedModel mDup "a" "anime" 2).map
        Item.title).Pairwise (· ≠ ·)) := by decide

/-- Claim C2 (amended): no title appears twice in any match result,
provided the catalog's (present) title cells are pairwise distinct and the
popularity fallback itself yields pairwise-distinct titles — the Exact tier
performs no duplicate check of its own, and neither does the empty-query
popularity path. -/
theorem C2_amended (m : Models) (query t : String) (limit : Nat)
    (h1 : ∀ df, domainData m t = some df →
      (df.rows.filterMap Row.titleCol).Pairwise (· ≠ ·))
    (h2 : ∀ k, ((getPopularItems m t k).map Item.title).Pairwise (· ≠ ·)) :
    ((getRecommendationsFromTrainedModel m query t limit).map
      Item.title).Pairwise (· ≠ ·) := by
  unfold getRecommendationsFromTrainedModel
  split
  · cases hd : domainData m t with
    | none => simp
    | some df =>
      simp only [hd]
      by_cases hq : pyStrip (pyLower query) = ""
      · rw [if_pos hq]
        exact h2 limit
      · rw [if_neg hq]
        have hr := tierResults_distinct df t (pyStrip (pyLower query)) limit (h1 df hd)
        have hpad : ∀ l : List Item, ((l.map Item.title).Pairwise (· ≠ ·)) →
            (((l.take limit).map Item.title).Pairwise (· ≠ ·)) := by
          intro l hl
          rw [List.map_take]
          exact hl.sublist (List.take_sublist _ _)
        split
        · exact hpad _ (padWithPop_distinct limit _ _ hr)
        · exact hpad _ hr
  · simp

/-- Claim C2 (witness for the amended theorem): query `"a"` against the
two-title catalog with an empty popularity artifact. -/
theorem C2_amended_witness :
    ((getRecommendationsFromTrainedModel mNoPop "a" "anime" 5).map
      Item.title).Pairwise (· ≠ ·) := by
  apply C2_amended
  · intro df hdf
    have he : domainData mNoPop "anime" =
        some ⟨true, [rowOnly "A", rowOnly "B"]⟩ := by decide
    rw [he] at hdf
    injection hdf with h
    subst h
    decide
  · intro k
    have he : getPopularItems mNoPop "anime" k =
        getPopularItemsAnime ⟨true, [rowOnly "A", rowOnly "B"]⟩ [] k := rfl
    rw [he]
    simp [getPopularItemsAnime]

/-- Claim C4 (counterexample): catalog `A, B`, popularity order `A, B`,
query `"a"`, limit 2 — the tier phase yields `[A]`, padding fetches only
`limit - 1 = 1` popular item (`A` again, skipped as duplicate), so the
result length is 1, while two distinct titles are reachable and the claim
demands `min(2, 2) = 2`. -/
theorem C4_counterexample :
    (getRecommendationsFromTrainedModel mPad "a" "anime" 2).length = 1 ∧
      reachableTitleCount mPad "anime" = 2 ∧
      (1 : Nat) ≠ min 2 (reachableTitleCount mPad "anime") := by decide

/-- Claim C4 (amended): the padding draws only from the first
`limit - len(tier results)` entries of the popularity order and skips
duplicate titles, so the final length is the tier-result count plus the
count of fetched popular items — equal to `min(limit, reachable)` only when
those fetched items are distinct and disjoint from the tier results, as
hypothesised here. -/
theorem C4_amended (m : Models) (query t : String) (limit : Nat) (df : DataFrame)
    (hd : domainData m t = some df)
    (hq : ¬ pyStrip (pyLower query) = "")
    (hfresh : ∀ it ∈ getPopularItems m t
        (limit - (tierResults df t (pyStrip (pyLower query)) limit).length),
        ∀ a ∈ tierResults df t (pyStrip (pyLower query)) limit, a.title ≠ it.title)
    (hdist : ((getPopularItems m t
        (limit - (tierResults df t (pyStrip (pyLower query)) limit).length)).map
          Item.title).Pairwise (· ≠ ·)) :
    (getRecommendationsFromTrainedModel m query t limit).length =
      (tierResults df t (pyStrip (pyLower query)) limit).length +
        (getPopularItems m t
          (limit - (tierResults df t (pyStrip (pyLower query)) limit).length)).length := by
  unfold getRecommendationsFromTrainedModel
  rw [if_pos (domainData_valid hd)]
  simp only [hd]
  rw [if_neg hq]
  have hrle := tierResults_length_le df t (pyStrip (pyLower query)) limit
  have hple := getPopularItems_length_le m t
    (limit - (tierResults df t (pyStrip (pyLower query)) limit).length)
  by_cases hlt : (tierResults df t (pyStrip (pyLower query)) limit).length < limit
  · rw [if_pos hlt]
    have hlen : (tierResults df t (pyStrip (pyLower query)) limit).length +
        (getPopularItems m t
          (limit - (tierResults df t (pyStrip (pyLower query)) limit).length)).length
        ≤ limit := by omega
    have hfull := padWithPop_length limit
      (getPopularItems m t
        (limit - (tierResults df t (pyStrip (pyLower query)) limit).length))
      (tierResults df t (pyStrip (pyLower query)) limit) hlen hfresh hdist
    rw [List.length_take, hfull]
    omega
  · rw [if_neg hlt]
    rw [List.length_take]
    omega

/-- Claim C4 (witness for the amended theorem): catalog `A, B`, popularity
order `B`, query `"a"`, limit 2 — one tier result plus one fresh popular
item gives length 2. -/
theorem C4_amended_witness :
    (getRecommendationsFromTrainedModel mFresh "a" "anime" 2).length =
      (tierResults ⟨true, [rowOnly "A", rowOnly "B"]⟩ "anime"
        (pyStrip (pyLower "a")) 2).length +
        (getPopularItems mFresh "anime"
          (2 - (tierResults ⟨true, [rowOnly "A", rowOnly "B"]⟩ "anime"
            (pyStrip (pyLower "a")) 2).length)).length :=
  C4_amended mFresh "a" "anime" 2 ⟨true, [rowOnly "A", rowOnly "B"]⟩
    (by decide) (by decide) (by decide) (by decide)

/-- The whole tier phase is the Exact tier followed by whatever the lower
tiers appended. -/
theorem tierResults_extends (df : DataFrame) (t q : String) (limit : Nat)
    (hcol : df.hasTitleCol = true) :
    ∃ l, tierResults df t q limit = exactTier df t q limit ++ l := by
  unfold tierResults
  rw [if_pos hcol]
  rcases addCands_extends t limit ((startsList df q).take (limit / 2))
    (exactTier df t q limit) with ⟨l2, h2⟩
  by_cases hc : 4 ≤ q.length
  · simp only [if_pos hc]
    rcases addCands_extends t limit ((containsList df q).take (limit / 3))
      (addCands t limit (exactTier df t q limit)
        ((startsList df q).take (limit / 2))) with ⟨l3, h3⟩
    by_cases hw : 1 < (pySplit q).length
    · rw [if_pos hw]
      rcases wordTier_extends df t limit (pySplit q)
        (addCands t limit
          (addCands t limit (exactTier df t q limit)
            ((startsList df q).take (limit / 2)))
          ((containsList df q).take (limit / 3))) with ⟨l4, h4⟩
      exact ⟨l2 ++ l3 ++ l4, by rw [h4, h3, h2]; simp⟩
    · rw [if_neg hw]
      exact ⟨l2 ++ l3, by rw [h3, h2]; simp⟩
  · simp only [if_neg hc]
    by_cases hw : 1 < (pySplit q).length
    · rw [if_pos hw]
      rcases wordTier_extends df t limit (pySplit q)
        (addCands t limit (exactTier df t q limit)
          ((startsList df q).take (limit / 2))) with ⟨l4, h4⟩
      exact ⟨l2 ++ l4, by rw [h4, h2]; simp⟩
    · rw [if_neg hw]
      exact ⟨l2, h2⟩

/-- Claim C5 (counterexample): with limit 0, an exact-title match exists
(`"A"` matches the trimmed lower-cased query `"a"`) yet the result is empty
and does not include it, so the inclusion claim fails for arbitrary
limits. -/
theorem C5_counterexample :
    (0, rowOnly "A") ∈
        exactList ⟨true, [rowOnly "A", rowOnly "B"]⟩ (pyStrip (pyLower "a")) ∧
      getRecommendationsFromTrainedModel mNoPop "a" "anime" 0 = [] := by decide

/-- Claim C5 (amended): when the exact-title match is among the first
`limit` exact matches (in particular whenever it is unique and
`limit ≥ 1`), its formatted item appears in the Exact tier, and the whole
result is the Exact tier followed by the lower-tier and padding items, so
it is ranked before every Prefix/Contains/Word-boundary match. -/
theorem C5_amended (m : Models) (query t : String) (limit : Nat) (df : DataFrame)
    (i : Nat) (r : Row)
    (hd : domainData m t = some df)
    (hcol : df.hasTitleCol = true)
    (hq : ¬ pyStrip (pyLower query) = "")
    (hmem : (i, r) ∈ (exactList df (pyStrip (pyLower query))).take limit) :
    formatItem t i r ∈ exactTier df t (pyStrip (pyLower query)) limit ∧
      ∃ rest, getRecommendationsFromTrainedModel m query t limit =
        exactTier df t (pyStrip (pyLower query)) limit ++ rest := by
  constructor
  · exact List.mem_map_of_mem (fun p => formatItem t p.1 p.2) hmem
  · rcases tierResults_extends df t (pyStrip (pyLower query)) limit hcol with ⟨l1, h1⟩
    unfold getRecommendationsFromTrainedModel
    rw [if_pos (domainData_valid hd)]
    simp only [hd]
    rw [if_neg hq]
    split
    · rcases padWithPop_extends limit
        (getPopularItems m t
          (limit - (tierResults df t (pyStrip (pyLower query)) limit).length))
        (tierResults df t (pyStrip (pyLower query)) limit) with ⟨l2, h2⟩
      rw [h2, h1, List.append_assoc, List.take_append_eq_append_take,
        List.take_of_length_le (exactTier_length_le df t (pyStrip (pyLower query)) limit)]
      exact ⟨_, rfl⟩
    · rw [h1, List.take_append_eq_append_take,
        List.take_of_length_le (exactTier_length_le df t (pyStrip (pyLower query)) limit)]
      exact ⟨_, rfl⟩

/-- Claim C5 (witness for the amended theorem): query `"a"`, catalog
`A, B`, limit 3. -/
theorem C5_amended_witness :
    formatItem "anime" 0 (rowOnly "A") ∈
        exactTier ⟨true, [rowOnly "A", rowOnly "B"]⟩ "anime"
          (pyStrip (pyLower "a")) 3 ∧
      ∃ rest, getRecommendationsFromTrainedModel mNoPop "a" "anime" 3 =
        exactTier ⟨true, [rowOnly "A", rowOnly "B"]⟩ "anime"
          (pyStrip (pyLower "a")) 3 ++ rest :=
  C5_amended mNoPop "a" "anime" 3 ⟨true, [rowOnly "A", rowOnly "B"]⟩ 0 (rowOnly "A")
    (by decide) rfl (by decide) (by decide)
